import Mathlib

/-!
Verification of the obs-hang ingest-and-decode pipeline.

The definitions below are a shallow embedding of the C sources:
`src/vaapi-decoder.c` (bitstream repacker, video decode path, latest-frame
staging) and `src/hang-source.c` (source-context lifecycle).  Byte buffers
are `List Nat` (each element one byte), machine integers are `Nat`/`Int`,
fallible C functions return `Option`, and the external libraries (FFmpeg,
libswscale, MoQ) are modelled as explicit oracles supplying their results.
-/

namespace ObsHang

/-! ## Bitstream repacker (`convert_mp4_nal_units_to_annex_b`) -/

/-- The 4-byte big-endian read
`(data[pos] << 24) | (data[pos+1] << 16) | (data[pos+2] << 8) | data[pos+3]`.
For bytes the shifted fields do not overlap, so bitwise-or is addition. -/
def readBE32 (a b c d : Nat) : Nat :=
  a * 16777216 + b * 65536 + c * 256 + d

/-- The Annex-B start code `00 00 00 01` written before every NAL payload. -/
def startCode : List Nat := [0, 0, 0, 1]

/-- One step of the repacker loop, with explicit fuel.  The loop body runs
while at least 4 bytes remain: it reads a big-endian length `L`, fails when
`L` overruns the remaining input, and otherwise emits the start code plus the
`L` payload bytes and advances past them.  Fewer than 4 remaining bytes end
the loop.  Each iteration consumes at least 4 bytes, so fuel `l.length` is
always sufficient; the fuel-exhausted branch coincides with the
loop-exit branch and is never reached from `convert_mp4_nal_units_to_annex_b`
with at least 4 bytes remaining. -/
def convertGo : Nat → List Nat → Option (List Nat)
  | fuel + 1, a :: b :: c :: d :: rest =>
    let L := readBE32 a b c d
    if L ≤ rest.length then
      (convertGo fuel (rest.drop L)).map (fun out => startCode ++ rest.take L ++ out)
    else
      none
  | _, _ => some []

/-- `convert_mp4_nal_units_to_annex_b` from `src/vaapi-decoder.c`: repack a
length-prefixed NAL buffer into start-code framing.  `none` models the
`return false` path (the output buffer is freed, no output is produced);
the buffer-growth bookkeeping of the C code has no observable effect on the
produced bytes and is not part of the state. -/
def convert_mp4_nal_units_to_annex_b (data : List Nat) : Option (List Nat) :=
  convertGo data.length data

/-- Specification-side parse of the input framing: the list of NAL payloads
consumed by the greedy walk of §4.1 of the spec (read 4-byte big-endian
length, require it to fit, take that many payload bytes, advance). -/
def parseGo : Nat → List Nat → Option (List (List Nat))
  | fuel + 1, a :: b :: c :: d :: rest =>
    let L := readBE32 a b c d
    if L ≤ rest.length then
      (parseGo fuel (rest.drop L)).map (fun ps => rest.take L :: ps)
    else
      none
  | _, _ => some []

/-- The payload list of an input buffer, per the spec's walk. -/
def parseNals (data : List Nat) : Option (List (List Nat)) :=
  parseGo data.length data

theorem convertGo_eq_parseGo (fuel : Nat) : ∀ l : List Nat,
    convertGo fuel l
      = (parseGo fuel l).map (fun ps => (ps.map (fun p => startCode ++ p)).flatten) := by
  induction fuel with
  | zero =>
    intro l
    cases l <;> simp [convertGo, parseGo]
  | succ fuel ih =>
    intro l
    match l with
    | [] => simp [convertGo, parseGo]
    | [a] => simp [convertGo, parseGo]
    | [a, b] => simp [convertGo, parseGo]
    | [a, b, c] => simp [convertGo, parseGo]
    | a :: b :: c :: d :: rest =>
      by_cases h : readBE32 a b c d ≤ rest.length
      · simp only [convertGo, parseGo, h, if_true,
          ih (rest.drop (readBE32 a b c d)), Option.map_map]
        congr 1
      · simp [convertGo, parseGo, h]

/-- The reframing equation: the repacker's output on any input is obtained
from the spec-side payload parse by replacing every length prefix with the
start code. -/
theorem convert_eq_reframe (data : List Nat) :
    convert_mp4_nal_units_to_annex_b data
      = (parseNals data).map (fun ps => (ps.map (fun p => startCode ++ p)).flatten) :=
  convertGo_eq_parseGo data.length data

theorem join_framed_length (ps : List (List Nat)) :
    ((ps.map (fun p => startCode ++ p)).flatten).length
      = 4 * ps.length + (ps.map List.length).sum := by
  induction ps with
  | nil => simp
  | cons p ps ih =>
    rw [List.map_cons, List.flatten_cons, List.length_append, ih]
    simp [startCode]
    omega

/-- C1: for every input accepted by the repacker, the output is the
start-code reframing of the input: every 4-byte big-endian length prefix
consumed by the walk is replaced by `00 00 00 01` followed by the payload
bytes, in order.  Consequently the emitted start codes are in bijection with
the consumed length prefixes, the emitted payload bytes are exactly the input
payload bytes (so the output length is 4·(number of units) plus the total
payload size), a zero-length NAL contributes a bare start code, and the empty
input yields the empty output. -/
theorem repacker_reframes (data : List Nat) :
    (convert_mp4_nal_units_to_annex_b data
        = (parseNals data).map (fun ps => (ps.map (fun p => startCode ++ p)).flatten))
    ∧ (∀ ps out, parseNals data = some ps →
        convert_mp4_nal_units_to_annex_b data = some out →
        out = (ps.map (fun p => startCode ++ p)).flatten
          ∧ out.length = 4 * ps.length + (ps.map List.length).sum)
    ∧ convert_mp4_nal_units_to_annex_b [] = some [] := by
  refine ⟨convert_eq_reframe data, ?_, rfl⟩
  intro ps out hps hout
  have h := convert_eq_reframe data
  rw [hps, hout] at h
  have h' : out = (ps.map (fun p => startCode ++ p)).flatten := by
    simpa using h
  exact ⟨h', by rw [h']; exact join_framed_length ps⟩

/-- Closed instance of `repacker_reframes`: a 1-byte NAL followed by a
zero-length NAL repacks to a framed 1-byte unit followed by a bare start
code. -/
theorem repacker_reframes_witness :
    convert_mp4_nal_units_to_annex_b [0, 0, 0, 1, 255, 0, 0, 0, 0]
        = some [0, 0, 0, 1, 255, 0, 0, 0, 1]
    ∧ ([0, 0, 0, 1, 255, 0, 0, 0, 1] : List Nat).length
        = 4 * 2 + ([[255], []].map List.length).sum := by
  have h := (repacker_reframes [0, 0, 0, 1, 255, 0, 0, 0, 0]).2.1
    [[255], []] [0, 0, 0, 1, 255, 0, 0, 0, 1] (by decide) (by decide)
  exact ⟨by decide, h.2⟩

/-- The repacker's walk encounters a 4-byte big-endian length prefix whose
declared length overruns the remaining input: either the very first prefix
does, or the first unit fits and a later prefix of the remaining walk does. -/
inductive WalkOverruns : List Nat → Prop where
  | here (a b c d : Nat) (rest : List Nat) :
      rest.length < readBE32 a b c d → WalkOverruns (a :: b :: c :: d :: rest)
  | later (a b c d : Nat) (rest : List Nat) :
      readBE32 a b c d ≤ rest.length →
      WalkOverruns (rest.drop (readBE32 a b c d)) →
      WalkOverruns (a :: b :: c :: d :: rest)

theorem WalkOverruns.four_le_length {l : List Nat} (h : WalkOverruns l) :
    4 ≤ l.length := by
  cases h <;> simp

theorem convertGo_eq_none {l : List Nat} (h : WalkOverruns l) :
    ∀ fuel, l.length ≤ fuel → convertGo fuel l = none := by
  induction h with
  | here a b c d rest hlt =>
    intro fuel hfuel
    match fuel with
    | fuel + 1 => simp [convertGo, Nat.not_le.2 hlt]
  | later a b c d rest hle _hrec ih =>
    intro fuel hfuel
    match fuel with
    | fuel + 1 =>
      have hdrop : (rest.drop (readBE32 a b c d)).length ≤ fuel := by
        simp only [List.length_cons, List.length_drop] at hfuel ⊢
        omega
      simp [convertGo, hle, ih fuel hdrop]

/-- C2: whenever some 4-byte length prefix reached by the walk declares a
length that would read past the end of the input, the repacker fails — it
returns `none` (the C function frees its scratch buffer and returns `false`
without writing the output parameters), producing no output buffer.  This is
the `MalformedBitstream` error of the spec's taxonomy. -/
theorem overlong_prefix_fails (data : List Nat) (h : WalkOverruns data) :
    convert_mp4_nal_units_to_annex_b data = none :=
  convertGo_eq_none h data.length (Nat.le_refl _)

/-- Witness for `overlong_prefix_fails`, at the spec's own malformed example
`00 00 00 10 AA BB` (declares 16 payload bytes, supplies 2). -/
theorem overlong_prefix_fails_witness :
    WalkOverruns [0, 0, 0, 16, 170, 187]
    ∧ convert_mp4_nal_units_to_annex_b [0, 0, 0, 16, 170, 187] = none := by
  have hw : WalkOverruns [0, 0, 0, 16, 170, 187] :=
    WalkOverruns.here 0 0 0 16 [170, 187] (by decide)
  exact ⟨hw, overlong_prefix_fails _ hw⟩

/-! ### Trailing bytes shorter than a length prefix -/

/-- The 4-byte big-endian encoding of `n` (for `n < 2^32`). -/
def be32bytes (n : Nat) : List Nat :=
  [n / 16777216 % 256, n / 65536 % 256, n / 256 % 256, n % 256]

/-- Length-prefixed encoding of a list of NAL payloads, the input framing the
repacker consumes (§6 of the spec: 4-byte big-endian length before each
payload). -/
def encodeNals (units : List (List Nat)) : List Nat :=
  (units.map (fun p => be32bytes p.length ++ p)).flatten

theorem readBE32_be32bytes {n : Nat} (h : n < 4294967296) :
    readBE32 (n / 16777216 % 256) (n / 65536 % 256) (n / 256 % 256) (n % 256) = n := by
  simp only [readBE32]
  omega

theorem convertGo_short {l : List Nat} (h : l.length < 4) :
    ∀ fuel, convertGo fuel l = some [] := by
  intro fuel
  match fuel, l with
  | 0, _ => rfl
  | fuel + 1, [] => rfl
  | fuel + 1, [a] => rfl
  | fuel + 1, [a, b] => rfl
  | fuel + 1, [a, b, c] => rfl
  | fuel + 1, a :: b :: c :: d :: rest => simp only [List.length_cons] at h; omega

theorem convertGo_encode_append (units : List (List Nat)) :
    ∀ (extra : List Nat) (fuel : Nat),
      (∀ p ∈ units, p.length < 4294967296) → extra.length < 4 →
      (encodeNals units ++ extra).length ≤ fuel →
      convertGo fuel (encodeNals units ++ extra)
        = some ((units.map (fun p => startCode ++ p)).flatten) := by
  induction units with
  | nil =>
    intro extra fuel _ hex _
    simpa [encodeNals] using convertGo_short hex fuel
  | cons p us ih =>
    intro extra fuel hlens hex hfuel
    have hp : p.length < 4294967296 := hlens p (by simp)
    have hrest : ∀ q ∈ us, q.length < 4294967296 := fun q hq => hlens q (by simp [hq])
    simp only [encodeNals, List.map_cons, List.flatten_cons, List.append_assoc] at hfuel ⊢
    match fuel with
    | 0 =>
      exfalso
      simp [be32bytes] at hfuel
    | fuel + 1 =>
      show convertGo (fuel + 1)
        (p.length / 16777216 % 256 :: p.length / 65536 % 256 :: p.length / 256 % 256 ::
          p.length % 256 :: (p ++ ((us.map (fun q => be32bytes q.length ++ q)).flatten ++ extra)))
        = _
      simp only [convertGo, readBE32_be32bytes hp]
      have hle : p.length ≤ (p ++ ((us.map (fun q => be32bytes q.length ++ q)).flatten ++ extra)).length := by
        simp
      rw [if_pos hle, List.take_left, List.drop_left]
      have hfuel' : ((us.map (fun q => be32bytes q.length ++ q)).flatten ++ extra).length ≤ fuel := by
        simp only [List.length_append, List.length_cons, be32bytes] at hfuel ⊢
        omega
      rw [show ((us.map (fun q => be32bytes q.length ++ q)).flatten ++ extra)
            = (encodeNals us ++ extra) from rfl,
        ih extra fuel hrest hex hfuel']
      simp

/-- Counterexample to the claim that trailing bytes shorter than a length
prefix make the repacker fail: on `00 00 00 00 AA` — one zero-length NAL
followed by a single trailing byte — the repacker succeeds, returning a bare
start code and silently ignoring the trailing byte (the loop guard
`pos + 4 <= size` simply exits). -/
theorem trailing_bytes_accepted_counterexample :
    convert_mp4_nal_units_to_annex_b [0, 0, 0, 0, 170] = some [0, 0, 0, 1] := by
  decide

/-- Amended C6: for every well-formed sequence of length-prefixed units
followed by 1–3 trailing bytes, the repacker does NOT treat the input as
malformed — it succeeds, emitting exactly the completely consumed units and
silently ignoring the trailing bytes. -/
theorem trailing_bytes_ignored (units : List (List Nat)) (extra : List Nat)
    (hlens : ∀ p ∈ units, p.length < 4294967296) (hex : extra.length < 4) :
    convert_mp4_nal_units_to_annex_b (encodeNals units ++ extra)
      = some ((units.map (fun p => startCode ++ p)).flatten) :=
  convertGo_encode_append units extra _ hlens hex (Nat.le_refl _)

/-- Witness for `trailing_bytes_ignored`: one 1-byte NAL plus two trailing
bytes repacks successfully to a single framed unit. -/
theorem trailing_bytes_ignored_witness :
    encodeNals [[7]] ++ [170, 187] = [0, 0, 0, 1, 7, 170, 187]
    ∧ convert_mp4_nal_units_to_annex_b (encodeNals [[7]] ++ [170, 187])
        = some [0, 0, 0, 1, 7] := by
  refine ⟨by decide, ?_⟩
  have h := trailing_bytes_ignored [[7]] [170, 187] (by decide) (by decide)
  simpa using h

/-! ## Video decoder and latest-frame staging (`src/vaapi-decoder.c`) -/

/-- Pixel formats, as far as the embedding distinguishes them. -/
inductive AVPixelFormat where
  | rgba
  | yuv420p
  | other (code : Nat)
deriving DecidableEq

/-- The aggregate `SWS_BILINEAR | SWS_FULL_CHR_H_INP | SWS_FULL_CHR_H_INT`
flag word passed to `sws_getContext` (the three bits 0x2, 0x4000, 0x2000 are
disjoint, so the bitwise-or is the sum). -/
def swsConversionFlags : Nat := 2 + 16384 + 8192

/-- The arguments a `SwsContext` was created with: source geometry/format,
destination geometry/format, and the flag word. -/
structure SwsCtx where
  srcW : Nat
  srcH : Nat
  srcFmt : AVPixelFormat
  dstW : Nat
  dstH : Nat
  dstFmt : AVPixelFormat
  flags : Nat
deriving DecidableEq

/-- A frame as returned by a successful `avcodec_receive_frame`. -/
structure DecodedFrame where
  width : Nat
  height : Nat
  format : AVPixelFormat
deriving DecidableEq

/-- `struct vaapi_decoder`: `va_display` and `codec_ctx` are modelled by
whether the pointer is non-null; `sws_ctx` carries the parameters it was
created with.  The VA-API handle fields and the unused `width`/`height`/
`pix_fmt` fields have no bearing on the claims and are omitted. -/
structure VaapiDecoder where
  va_display : Bool
  codec_ctx : Bool
  sws_ctx : Option SwsCtx
deriving DecidableEq

/-- The latest-frame slot of `struct hang_source`: `current_frame_data`
(`none` = null pointer), `current_frame_size`, `current_frame_width`,
`current_frame_height`. -/
structure Slot where
  buf : Option (List Nat)
  size : Nat
  width : Nat
  height : Nat
deriving DecidableEq

/-- The zero-initialized slot (`hang_source_create`'s `bzalloc` plus explicit
zeroing). -/
def emptySlot : Slot := ⟨none, 0, 0, 0⟩

/-- The slot flush performed by `hang_source_deactivate`: the buffer, size
and dimensions are reset only when the buffer pointer is non-null. -/
def flushSlot (s : Slot) : Slot :=
  if s.buf.isSome then emptySlot else s

/-- `store_decoded_frame`: under the frame mutex, release the previous buffer
and install the new buffer, size, width, height. -/
def store_decoded_frame (_slot : Slot) (data : List Nat) (size width height : Nat) : Slot :=
  ⟨some data, size, width, height⟩

/-- The latest-frame slot invariant of §3 of the spec: a non-null buffer
pointer implies `size = width × height × 4` and positive dimensions. -/
def slotInvariant (s : Slot) : Prop :=
  s.buf.isSome = true → s.size = s.width * s.height * 4 ∧ 0 < s.width ∧ 0 < s.height

/-- The outcomes of the external libav/swscale calls made during one
`software_decode_frame` call, in call order: `av_packet_alloc`,
`avcodec_send_packet`, `av_frame_alloc`, `avcodec_receive_frame`,
`sws_getContext` (used only when no converter exists yet), `bzalloc` of the
RGBA buffer, `sws_scale`'s return value, and the bytes the conversion writes
into the RGBA buffer. -/
structure CodecStep where
  packetAllocOk : Bool
  sendRet : Int
  frameAllocOk : Bool
  recvFrame : Option DecodedFrame
  swsCreateOk : Bool
  rgbaAllocOk : Bool
  scaleRet : Int
  scaled : List Nat
deriving DecidableEq

/-- What one decode call did: its boolean result, the decoder state after the
call, the latest-frame slot after the call, the frame staged by
`store_decoded_frame` (if any), and the converter passed to `sws_scale` (if
the call got that far). -/
structure SwDecodeResult where
  ok : Bool
  decoder : VaapiDecoder
  slot : Slot
  staged : Option DecodedFrame
  convUsed : Option SwsCtx
deriving DecidableEq

/-- `software_decode_frame`: repack the access unit via the bitstream
repacker, submit it to the codec, poll one frame; on a produced frame,
lazily create the RGBA converter (only when `decoder->sws_ctx` is null, at
the produced frame's dimensions), allocate `width*height*4` output bytes,
convert, and stage via `store_decoded_frame`.  Every failure path returns
`false` without staging. -/
def software_decode_frame (dec : VaapiDecoder) (data : List Nat) (o : CodecStep)
    (slot : Slot) : SwDecodeResult :=
  match convert_mp4_nal_units_to_annex_b data with
  | none => ⟨false, dec, slot, none, none⟩
  | some _converted =>
    if o.packetAllocOk = false then ⟨false, dec, slot, none, none⟩
    else if o.sendRet < 0 then ⟨false, dec, slot, none, none⟩
    else if o.frameAllocOk = false then ⟨false, dec, slot, none, none⟩
    else
      match o.recvFrame with
      | none => ⟨false, dec, slot, none, none⟩
      | some frame =>
        let created : Option SwsCtx :=
          match dec.sws_ctx with
          | none =>
            if o.swsCreateOk then
              some ⟨frame.width, frame.height, frame.format,
                frame.width, frame.height, .rgba, swsConversionFlags⟩
            else none
          | some c => some c
        match created with
        | none => ⟨false, dec, slot, none, none⟩
        | some c =>
          let dec' : VaapiDecoder := { dec with sws_ctx := some c }
          if o.rgbaAllocOk = false then ⟨false, dec', slot, none, none⟩
          else if o.scaleRet < 0 then ⟨false, dec', slot, none, none⟩
          else
            ⟨true, dec',
              store_decoded_frame slot o.scaled (frame.width * frame.height * 4)
                frame.width frame.height,
              some frame, some c⟩

/-- `vaapi_decoder_decode`: no decoder → `false`; a hardware display present
→ `vaapi_decode_frame`, the placeholder that always returns `false`; else a
software codec context present → `software_decode_frame`; else `false`. -/
def vaapi_decoder_decode (vd : Option VaapiDecoder) (data : List Nat) (o : CodecStep)
    (slot : Slot) : SwDecodeResult :=
  match vd with
  | none => ⟨false, ⟨false, false, none⟩, slot, none, none⟩
  | some dec =>
    if dec.va_display then ⟨false, dec, slot, none, none⟩
    else if dec.codec_ctx then software_decode_frame dec data o slot
    else ⟨false, dec, slot, none, none⟩

/-- The post-`vaapi_decoder_decode` decoder, as an `Option` mirroring
`context->vaapi_context`. -/
def SwDecodeResult.vaapiAfter (vd : Option VaapiDecoder) (r : SwDecodeResult) :
    Option VaapiDecoder :=
  match vd with
  | none => none
  | some _ => some r.decoder

/-- C3: the latest-frame slot invariant — non-null buffer implies
`size = width × height × 4` and positive dimensions — holds for the
zero-initialized slot made by `create`, is preserved by `deactivate`'s
flush, and is preserved by the staging a successful `software_decode_frame`
performs (any frame produced by `avcodec_receive_frame` has positive
dimensions, which is the hypothesis on the oracle's frame). -/
theorem slot_invariant_preserved :
    slotInvariant emptySlot
    ∧ (∀ s, slotInvariant (flushSlot s))
    ∧ (∀ dec data o slot,
        (∀ f, o.recvFrame = some f → 0 < f.width ∧ 0 < f.height) →
        slotInvariant slot →
        slotInvariant (software_decode_frame dec data o slot).slot) := by
  refine ⟨?_, ?_, ?_⟩
  · intro h
    simp [emptySlot] at h
  · intro s
    by_cases h : s.buf.isSome
    · intro h'
      simp [flushSlot, h, emptySlot] at h'
    · intro h'
      simp [flushSlot, h] at h'
  · intro dec data o slot hframe hslot
    unfold software_decode_frame
    cases hconv : convert_mp4_nal_units_to_annex_b data with
    | none => exact hslot
    | some conv =>
      simp only
      by_cases h1 : o.packetAllocOk = false
      · simpa [h1] using hslot
      by_cases h2 : o.sendRet < 0
      · simpa [h1, h2] using hslot
      by_cases h3 : o.frameAllocOk = false
      · simpa [h1, h2, h3] using hslot
      simp only [h1, h2, h3, if_false]
      cases hr : o.recvFrame with
      | none => exact hslot
      | some frame =>
        simp only
        have hwh := hframe frame hr
        cases hsws : dec.sws_ctx with
        | none =>
          by_cases h4 : o.swsCreateOk
          · simp only [hsws, h4, if_true]
            by_cases h5 : o.rgbaAllocOk = false
            · simpa [h5] using hslot
            by_cases h6 : o.scaleRet < 0
            · simpa [h5, h6] using hslot
            simp only [h5, h6, if_false]
            intro _
            exact ⟨rfl, hwh⟩
          · simp only [hsws, h4, if_false]
            exact hslot
        | some c =>
          simp only [hsws]
          by_cases h5 : o.rgbaAllocOk = false
          · simpa [h5] using hslot
          by_cases h6 : o.scaleRet < 0
          · simpa [h5, h6] using hslot
          simp only [h5, h6, if_false]
          intro _
          exact ⟨rfl, hwh⟩

/-- Witness for `slot_invariant_preserved`: a fresh software decoder decoding
one access unit whose codec oracle produces a 2×2 frame yields a slot
satisfying the invariant. -/
theorem slot_invariant_preserved_witness :
    slotInvariant (software_decode_frame ⟨false, true, none⟩ []
      ⟨true, 0, true, some ⟨2, 2, .yuv420p⟩, true, true, 0, []⟩ emptySlot).slot := by
  refine slot_invariant_preserved.2.2 ⟨false, true, none⟩ []
    ⟨true, 0, true, some ⟨2, 2, .yuv420p⟩, true, true, 0, []⟩ emptySlot ?_ ?_
  · intro f hf
    cases hf
    exact ⟨by decide, by decide⟩
  · intro h
    simp [emptySlot] at h

theorem software_decode_true_iff (dec : VaapiDecoder) (data : List Nat) (o : CodecStep)
    (slot : Slot) :
    ((software_decode_frame dec data o slot).ok = true
        ↔ ((software_decode_frame dec data o slot).staged).isSome = true)
    ∧ ((software_decode_frame dec data o slot).ok = false →
        (software_decode_frame dec data o slot).slot = slot
        ∧ (software_decode_frame dec data o slot).staged = none)
    ∧ (convert_mp4_nal_units_to_annex_b data = none →
        (software_decode_frame dec data o slot).ok = false)
    ∧ (o.recvFrame = none → (software_decode_frame dec data o slot).ok = false) := by
  obtain ⟨pa, sr, fa, rf, sc, ra, sret, sb⟩ := o
  by_cases h2 : sr < 0 <;> by_cases h6 : sret < 0 <;>
    cases hconv : convert_mp4_nal_units_to_annex_b data <;>
    cases pa <;> cases fa <;> cases sc <;> cases ra <;> cases rf <;>
    cases hs : dec.sws_ctx <;>
    simp [software_decode_frame, store_decoded_frame, hconv, hs, h2, h6]

/-- C10: `vaapi_decoder_decode` returns `true` exactly when a decoded frame
was staged into the latest-frame slot during the call; on every `false`
return the slot is unchanged and nothing was staged.  In particular it
returns `false` when no decoder instance exists (`context->vaapi_context`
null), when the hardware path is taken (the VA-API decode placeholder), when
the repacker rejects the bitstream, and when the codec produces no frame
(`avcodec_receive_frame` failed, e.g. needs more input). -/
theorem decode_true_iff_staged (vd : Option VaapiDecoder) (data : List Nat) (o : CodecStep)
    (slot : Slot) :
    ((vaapi_decoder_decode vd data o slot).ok = true
        ↔ ((vaapi_decoder_decode vd data o slot).staged).isSome = true)
    ∧ ((vaapi_decoder_decode vd data o slot).ok = false →
        (vaapi_decoder_decode vd data o slot).slot = slot
        ∧ (vaapi_decoder_decode vd data o slot).staged = none)
    ∧ (vd = none → (vaapi_decoder_decode vd data o slot).ok = false)
    ∧ (∀ dec, vd = some dec → dec.va_display = true →
        (vaapi_decoder_decode vd data o slot).ok = false)
    ∧ (convert_mp4_nal_units_to_annex_b data = none →
        (vaapi_decoder_decode vd data o slot).ok = false)
    ∧ (o.recvFrame = none → (vaapi_decoder_decode vd data o slot).ok = false) := by
  cases vd with
  | none => simp [vaapi_decoder_decode]
  | some dec =>
    cases hdisp : dec.va_display with
    | true => simp [vaapi_decoder_decode, hdisp]
    | false =>
      cases hcc : dec.codec_ctx with
      | false => simp [vaapi_decoder_decode, hdisp, hcc]
      | true =>
        have h := software_decode_true_iff dec data o slot
        simp only [vaapi_decoder_decode, hdisp, hcc, if_false, if_true, Bool.false_eq_true]
        refine ⟨h.1, h.2.1, ?_, ?_, h.2.2.1, h.2.2.2⟩
        · intro hv
          cases hv
        · intro d hd hdisp2
          cases hd
          rw [hdisp] at hdisp2
          cases hdisp2

/-- Witness for `decode_true_iff_staged` at a null decoder pointer: the call
returns `false`. -/
theorem decode_true_iff_staged_witness :
    (vaapi_decoder_decode none [] ⟨true, 0, true, none, true, true, 0, []⟩ emptySlot).ok
      = false :=
  (decode_true_iff_staged none [] ⟨true, 0, true, none, true, true, 0, []⟩ emptySlot).2.2.1 rfl

/-! ## The lazily created pixel-format converter -/

/-- Any converter the software decode path has installed targets packed RGBA
with the bilinear/full-chroma flag word: it was created by the
`sws_getContext` call in `software_decode_frame`. -/
def decoderConvInv (dec : VaapiDecoder) : Prop :=
  ∀ c, dec.sws_ctx = some c →
    c.dstFmt = AVPixelFormat.rgba ∧ c.flags = swsConversionFlags

/-- Counterexample to the claim that the converter always targets the current
frame's own dimensions: a fresh software decoder decodes a 640×360 frame
(creating the converter), then a 1280×720 frame.  The second call stages a
1280×720 frame but reuses the converter targeting 640×360 — `sws_ctx` is
created only when null and never recreated on a dimension change. -/
theorem converter_stale_dims_counterexample :
    ((software_decode_frame
        (software_decode_frame ⟨false, true, none⟩ []
          ⟨true, 0, true, some ⟨640, 360, .yuv420p⟩, true, true, 0, []⟩ emptySlot).decoder
        []
        ⟨true, 0, true, some ⟨1280, 720, .yuv420p⟩, true, true, 0, []⟩
        (software_decode_frame ⟨false, true, none⟩ []
          ⟨true, 0, true, some ⟨640, 360, .yuv420p⟩, true, true, 0, []⟩ emptySlot).slot).staged
      = some ⟨1280, 720, .yuv420p⟩)
    ∧ ((software_decode_frame
        (software_decode_frame ⟨false, true, none⟩ []
          ⟨true, 0, true, some ⟨640, 360, .yuv420p⟩, true, true, 0, []⟩ emptySlot).decoder
        []
        ⟨true, 0, true, some ⟨1280, 720, .yuv420p⟩, true, true, 0, []⟩
        (software_decode_frame ⟨false, true, none⟩ []
          ⟨true, 0, true, some ⟨640, 360, .yuv420p⟩, true, true, 0, []⟩ emptySlot).slot).convUsed
      = some ⟨640, 360, .yuv420p, 640, 360, .rgba, swsConversionFlags⟩) := by
  decide

theorem sw_decode_conv_inv (dec : VaapiDecoder) (data : List Nat) (o : CodecStep)
    (slot : Slot) (hinv : decoderConvInv dec) :
    decoderConvInv (software_decode_frame dec data o slot).decoder := by
  unfold software_decode_frame
  cases hconv : convert_mp4_nal_units_to_annex_b data with
  | none => exact hinv
  | some conv =>
    simp only
    by_cases h1 : o.packetAllocOk = false
    · simpa [h1] using hinv
    by_cases h2 : o.sendRet < 0
    · simpa [h1, h2] using hinv
    by_cases h3 : o.frameAllocOk = false
    · simpa [h1, h2, h3] using hinv
    simp only [h1, h2, h3, if_false]
    cases hr : o.recvFrame with
    | none => exact hinv
    | some frame =>
      simp only
      cases hsws : dec.sws_ctx with
      | none =>
        by_cases h4 : o.swsCreateOk
        · simp only [h4, if_true, apply_ite SwDecodeResult.decoder, ite_self]
          intro c hc
          cases hc
          exact ⟨rfl, rfl⟩
        · simp only [h4, if_false]
          exact hinv
      | some c0 =>
        simp only [apply_ite SwDecodeResult.decoder, ite_self]
        intro c hc
        cases hc
        exact hinv c0 hsws

theorem sw_decode_success_conv (dec : VaapiDecoder) (data : List Nat) (o : CodecStep)
    (slot : Slot) (hinv : decoderConvInv dec)
    (hok : (software_decode_frame dec data o slot).ok = true) :
    ∃ c f, (software_decode_frame dec data o slot).convUsed = some c
      ∧ (software_decode_frame dec data o slot).staged = some f
      ∧ c.dstFmt = AVPixelFormat.rgba ∧ c.flags = swsConversionFlags
      ∧ (software_decode_frame dec data o slot).slot.size = f.width * f.height * 4
      ∧ (software_decode_frame dec data o slot).decoder.sws_ctx = some c
      ∧ (dec.sws_ctx = none →
          c = ⟨f.width, f.height, f.format, f.width, f.height,
                AVPixelFormat.rgba, swsConversionFlags⟩)
      ∧ (∀ c0, dec.sws_ctx = some c0 → c = c0) := by
  revert hok
  unfold software_decode_frame
  cases hconv : convert_mp4_nal_units_to_annex_b data with
  | none => intro h; cases h
  | some conv =>
    simp only
    by_cases h1 : o.packetAllocOk = false
    · simp [h1]
    by_cases h2 : o.sendRet < 0
    · simp [h1, h2]
    by_cases h3 : o.frameAllocOk = false
    · simp [h1, h2, h3]
    simp only [h1, h2, h3, if_false]
    cases hr : o.recvFrame with
    | none => intro h; cases h
    | some frame =>
      simp only
      cases hsws : dec.sws_ctx with
      | none =>
        by_cases h4 : o.swsCreateOk
        · simp only [h4, if_true]
          by_cases h5 : o.rgbaAllocOk = false
          · simp [h5]
          by_cases h6 : o.scaleRet < 0
          · simp [h5, h6]
          simp only [h5, h6, if_false]
          intro _
          refine ⟨_, frame, rfl, rfl, rfl, rfl, rfl, rfl, fun _ => rfl, ?_⟩
          intro c0 hc0
          exact Option.noConfusion hc0
        · simp [h4]
      | some c0 =>
        simp only
        by_cases h5 : o.rgbaAllocOk = false
        · simp [h5]
        by_cases h6 : o.scaleRet < 0
        · simp [h5, h6]
        simp only [h5, h6, if_false]
        intro _
        obtain ⟨hfmt, hflags⟩ := hinv c0 hsws
        refine ⟨c0, frame, rfl, rfl, hfmt, hflags, rfl, rfl, ?_, ?_⟩
        · intro hnone
          exact Option.noConfusion hnone
        · intro c1 hc1
          cases hc1
          rfl

/-- Amended C7: on every software decode call that produces a frame, the
staged output size is exactly that frame's `width × height × 4` bytes, and
the converter used targets packed RGBA with bilinear scaling and full-range
chroma — but at the dimensions captured when the converter was created: it is
created at the current frame's own dimensions only when no converter exists
yet; otherwise the existing converter (built from the first produced frame)
is reused unchanged, even when the current frame's dimensions differ. -/
theorem converter_rgba_and_staged_size (dec : VaapiDecoder) (data : List Nat) (o : CodecStep)
    (slot : Slot) (hinv : decoderConvInv dec) :
    decoderConvInv (software_decode_frame dec data o slot).decoder
    ∧ ((software_decode_frame dec data o slot).ok = true →
        ∃ c f, (software_decode_frame dec data o slot).convUsed = some c
          ∧ (software_decode_frame dec data o slot).staged = some f
          ∧ c.dstFmt = AVPixelFormat.rgba ∧ c.flags = swsConversionFlags
          ∧ (software_decode_frame dec data o slot).slot.size = f.width * f.height * 4
          ∧ (software_decode_frame dec data o slot).decoder.sws_ctx = some c
          ∧ (dec.sws_ctx = none →
              c = ⟨f.width, f.height, f.format, f.width, f.height,
                    AVPixelFormat.rgba, swsConversionFlags⟩)
          ∧ (∀ c0, dec.sws_ctx = some c0 → c = c0)) :=
  ⟨sw_decode_conv_inv dec data o slot hinv,
   fun hok => sw_decode_success_conv dec data o slot hinv hok⟩

/-- Witness for `converter_rgba_and_staged_size`: a fresh software decoder
(so `decoderConvInv` holds vacuously) producing a 2×3 frame. -/
theorem converter_rgba_and_staged_size_witness :
    decoderConvInv (software_decode_frame ⟨false, true, none⟩ []
      ⟨true, 0, true, some ⟨2, 3, .yuv420p⟩, true, true, 0, []⟩ emptySlot).decoder :=
  (converter_rgba_and_staged_size ⟨false, true, none⟩ []
    ⟨true, 0, true, some ⟨2, 3, .yuv420p⟩, true, true, 0, []⟩ emptySlot
    (fun c hc => by cases hc)).1

/-! ## Source context lifecycle (`src/hang-source.c`)

C strings are `List Char`; a nullable `char *` field is
`Option (List Char)`.  The MoQ library is modelled by oracles supplying the
return values of `moq_session_connect` and `moq_subscribe_create`, and the
calls the code makes into the library are recorded in an event trace. -/

/-- Calls into the MoQ library, in program order. -/
inductive MoqCall where
  | sessionConnect (url : List Char)
  | sessionClose (id : Int)
  | subscribeCreate (path : List Char)
  | subscribeClose (id : Int)
deriving DecidableEq

/-- The lifecycle errors the code logs at ERROR level (spec §7 taxonomy). -/
inductive HangError where
  | invalidConfiguration
  | sessionUnavailable
  | decoderUnavailable
  | subscribeFailed
deriving DecidableEq

/-- `struct hang_source`, restricted to the fields the claims are about.
The queues are modelled by their lengths (`frame_queue_len`,
`audio_queue_len`); nothing in the sources enqueues to the frame queue, and
the audio enqueue (in the audio decoder, not under `src/`) only moves the
length.  The mutexes, condition variables, texture and the OBS source
pointer carry no claim-relevant state. -/
structure HangSource where
  url : Option (List Char)
  broadcast_path : Option (List Char)
  active : Bool
  session_id : Int
  subscription_id : Int
  vaapi_context : Option VaapiDecoder
  audio_ctx : Bool
  slot : Slot
  frame_queue_len : Nat
  audio_queue_len : Nat
deriving DecidableEq

/-- C `strstr(s, pat)`: the suffix of `s` beginning at the first occurrence
of `pat`, or `none`. -/
def strstr (pat : List Char) : List Char → Option (List Char)
  | [] => if pat.isPrefixOf ([] : List Char) then some [] else none
  | a :: t => if pat.isPrefixOf (a :: t) then some (a :: t) else strstr pat t

/-- The separator the URL validation searches for. -/
def schemeSep : List Char := [':', '/', '/']

/-- The context state `hang_source_create` builds before calling `update`:
everything `bzalloc`-zeroed, queues allocated at capacity 16 with length 0. -/
def createState : HangSource :=
  ⟨none, none, false, 0, 0, none, false, emptySlot, 0, 0⟩

/-- Outcomes of the external calls `hang_source_activate` makes:
`moq_session_connect`'s return value, whether the VA-API hardware probe
chain succeeds, whether the FFmpeg software fallback succeeds, whether
`audio_decoder_init` succeeds, and `moq_subscribe_create`'s return value. -/
structure ActivateOracle where
  connectRet : Int
  hwOk : Bool
  swOk : Bool
  audioOk : Bool
  subscribeRet : Int
deriving DecidableEq

/-- `vaapi_decoder_init`: hardware probe first (display, config, context);
on success the decoder has a display and no software codec.  Otherwise the
software fallback; on success the decoder has a codec context, null display,
null `sws_ctx`.  On total failure `context->vaapi_context` is null and the
function returns false. -/
def vaapi_decoder_init (hwOk swOk : Bool) : Option VaapiDecoder :=
  if hwOk then some ⟨true, false, none⟩
  else if swOk then some ⟨false, true, none⟩
  else none

/-- Result of `hang_source_activate` / `hang_source_update`: the new state,
the MoQ calls made, and the lifecycle errors logged. -/
structure ActRes where
  st : HangSource
  calls : List MoqCall
  errs : List HangError
deriving DecidableEq

/-- The `cleanup:` label of `hang_source_activate`: close the subscription
if held, close the session if held, destroy both decoders. -/
def activateCleanup (s : HangSource) : HangSource × List MoqCall :=
  let c1 : List MoqCall :=
    if s.subscription_id > 0 then [MoqCall.subscribeClose s.subscription_id] else []
  let c2 : List MoqCall :=
    if s.session_id > 0 then [MoqCall.sessionClose s.session_id] else []
  (⟨s.url, s.broadcast_path, s.active,
    if s.session_id > 0 then 0 else s.session_id,
    if s.subscription_id > 0 then 0 else s.subscription_id,
    none, false, s.slot, s.frame_queue_len, s.audio_queue_len⟩,
   c1 ++ c2)

/-- `hang_source_activate`: early-return when already active or the URL or
broadcast path is null/empty; validate the URL (`strstr "://"` non-null and
non-empty remainder after it); connect the session; init the video then
audio decoders; create the subscription; set `active`.  Each failure path
releases what was acquired (via the `cleanup:` label) and leaves the context
inactive. -/
def hang_source_activate (s : HangSource) (o : ActivateOracle) : ActRes :=
  if s.active = true ∨ s.url = none ∨ s.broadcast_path = none
      ∨ (s.url.getD []).length = 0 ∨ (s.broadcast_path.getD []).length = 0 then
    ⟨s, [], []⟩
  else
    let url := s.url.getD []
    let bpath := s.broadcast_path.getD []
    match strstr schemeSep url with
    | none => ⟨s, [], [HangError.invalidConfiguration]⟩
    | some hostStart =>
      if (hostStart.drop 3).length = 0 then
        ⟨s, [], [HangError.invalidConfiguration]⟩
      else
        let s1 : HangSource := { s with session_id := o.connectRet }
        if o.connectRet ≤ 0 then
          ⟨s1, [MoqCall.sessionConnect url], [HangError.sessionUnavailable]⟩
        else
          match vaapi_decoder_init o.hwOk o.swOk with
          | none =>
            let r := activateCleanup s1
            ⟨r.1, MoqCall.sessionConnect url :: r.2, [HangError.decoderUnavailable]⟩
          | some dec =>
            let s2 : HangSource := { s1 with vaapi_context := some dec }
            if o.audioOk = false then
              let r := activateCleanup s2
              ⟨r.1, MoqCall.sessionConnect url :: r.2, [HangError.decoderUnavailable]⟩
            else
              let s3 : HangSource :=
                { s2 with audio_ctx := true, subscription_id := o.subscribeRet }
              if o.subscribeRet ≤ 0 then
                let r := activateCleanup s3
                ⟨r.1, MoqCall.sessionConnect url :: MoqCall.subscribeCreate bpath :: r.2,
                  [HangError.subscribeFailed]⟩
              else
                ⟨{ s3 with active := true },
                  [MoqCall.sessionConnect url, MoqCall.subscribeCreate bpath], []⟩

/-- `hang_source_deactivate`: no-op when inactive; otherwise clear `active`,
close subscription and session if held, destroy both decoders, flush the
latest-frame slot, and empty both queues. -/
def hang_source_deactivate (s : HangSource) : HangSource × List MoqCall :=
  if s.active = false then (s, [])
  else
    let c1 : List MoqCall :=
      if s.subscription_id > 0 then [MoqCall.subscribeClose s.subscription_id] else []
    let c2 : List MoqCall :=
      if s.session_id > 0 then [MoqCall.sessionClose s.session_id] else []
    (⟨s.url, s.broadcast_path, false,
      if s.session_id > 0 then 0 else s.session_id,
      if s.subscription_id > 0 then 0 else s.subscription_id,
      none, false, flushSlot s.slot, 0, 0⟩,
     c1 ++ c2)

/-- `hang_source_update`: compare the incoming `url`/`broadcast` settings
strings (never null — `obs_data_get_string` returns "") with the stored
ones; return if neither changed; otherwise deactivate, swap the stored
strings, and re-activate when both are non-empty. -/
def hang_source_update (s : HangSource) (url bpath : List Char) (o : ActivateOracle) :
    ActRes :=
  let url_changed := s.url = none ∨ s.url ≠ some url
  let bcast_changed := s.broadcast_path = none ∨ s.broadcast_path ≠ some bpath
  if ¬url_changed ∧ ¬bcast_changed then ⟨s, [], []⟩
  else
    let d := hang_source_deactivate s
    let s2 : HangSource := { d.1 with url := some url, broadcast_path := some bpath }
    if 0 < url.length ∧ 0 < bpath.length then
      let r := hang_source_activate s2 o
      ⟨r.st, d.2 ++ r.calls, r.errs⟩
    else ⟨s2, d.2, []⟩

/-- `hang_source_create`: allocate the zeroed context, then run `update`
with the initial settings. -/
def hang_source_create (url bpath : List Char) (o : ActivateOracle) : ActRes :=
  hang_source_update createState url bpath o

/-- The `on_video` MoQ callback: return immediately when inactive, else run
`vaapi_decoder_decode` on the access unit and keep the updated decoder state
and slot. -/
def on_video (s : HangSource) (data : List Nat) (o : CodecStep) : HangSource :=
  if s.active = false then s
  else
    let r := vaapi_decoder_decode s.vaapi_context data o s.slot
    { s with vaapi_context := r.vaapiAfter s.vaapi_context, slot := r.slot }

/-- Modelled from the spec: `audio-decoder.c` is not among the sources; §4.3
and §4.4 specify that a successful `audio_decoder_decode` enqueues PCM
planes into the bounded audio queue (capacity 16, drop-oldest when full).
Only the queue length is observable to the claims. -/
def audio_decoder_decode_len (len : Nat) (ok : Bool) : Nat :=
  if ok then min (len + 1) 16 else len

/-- The `on_audio` MoQ callback: return immediately when inactive, else run
the audio decoder, which may enqueue. -/
def on_audio (s : HangSource) (ok : Bool) : HangSource :=
  if s.active = false then s
  else { s with audio_queue_len := audio_decoder_decode_len s.audio_queue_len ok }

/-- One sequential lifecycle or callback step applied to a live context. -/
inductive HSStep where
  | upd (url bpath : List Char) (o : ActivateOracle)
  | act (o : ActivateOracle)
  | deact
  | vid (data : List Nat) (o : CodecStep)
  | aud (ok : Bool)

/-- Apply one step. -/
def hsStep (s : HangSource) : HSStep → HangSource
  | HSStep.upd url bpath o => (hang_source_update s url bpath o).st
  | HSStep.act o => (hang_source_activate s o).st
  | HSStep.deact => (hang_source_deactivate s).1
  | HSStep.vid d o => on_video s d o
  | HSStep.aud ok => on_audio s ok

/-- Context states reachable from `create` by lifecycle calls and MoQ
callbacks (sequentially interleaved; `destroy` frees the context and has no
successor state). -/
inductive Reachable : HangSource → Prop where
  | created (url bpath : List Char) (o : ActivateOracle) :
      Reachable (hang_source_create url bpath o).st
  | step {s : HangSource} (st : HSStep) : Reachable s → Reachable (hsStep s st)

/-- The URL passes `hang_source_activate`'s validation: it contains `://`
and has a non-empty host segment after it. -/
def urlOkB (url : List Char) : Bool :=
  match strstr schemeSep url with
  | none => false
  | some hostStart => decide ((hostStart.drop 3).length ≠ 0)

/-- Invariant of reachable context states: an inactive context holds no
staged frame, empty queues and no session or subscription (non-positive
ids); an active context has a validated URL; and a null slot buffer comes
with zeroed dimensions. -/
def Inv (s : HangSource) : Prop :=
  (s.active = false →
    s.slot = emptySlot ∧ s.frame_queue_len = 0 ∧ s.audio_queue_len = 0
    ∧ s.session_id ≤ 0 ∧ s.subscription_id ≤ 0)
  ∧ (s.active = true → ∃ url, s.url = some url ∧ urlOkB url = true)
  ∧ (s.slot.buf = none → s.slot = emptySlot)

theorem flushSlot_of_inv {sl : Slot} (h3 : sl.buf = none → sl = emptySlot) :
    flushSlot sl = emptySlot := by
  cases hb : sl.buf with
  | none => simpa [flushSlot, hb] using h3 hb
  | some b => simp [flushSlot, hb]

theorem inv_createState : Inv createState := by
  refine ⟨fun _ => ⟨rfl, rfl, rfl, le_refl _, le_refl _⟩, ?_, fun _ => rfl⟩
  intro h
  cases h

theorem inv_deactivate (s : HangSource) (h : Inv s) :
    Inv (hang_source_deactivate s).1 := by
  obtain ⟨h1, h2, h3⟩ := h
  unfold hang_source_deactivate
  cases hact : s.active with
  | false => exact ⟨h1, h2, h3⟩
  | true =>
    simp only [Bool.true_eq_false, if_false]
    have hflush : flushSlot s.slot = emptySlot := flushSlot_of_inv h3
    refine ⟨?_, ?_, ?_⟩
    · intro _
      refine ⟨hflush, rfl, rfl, ?_, ?_⟩
      · by_cases hp : s.session_id > 0 <;> simp [hp] <;> omega
      · by_cases hp : s.subscription_id > 0 <;> simp [hp] <;> omega
    · intro hA
      exact absurd hA (by simp)
    · intro _
      exact hflush

theorem inv_activate (s : HangSource) (o : ActivateOracle) (h : Inv s) :
    Inv (hang_source_activate s o).st := by
  obtain ⟨h1, h2, h3⟩ := h
  unfold hang_source_activate
  by_cases hc : s.active = true ∨ s.url = none ∨ s.broadcast_path = none
      ∨ (s.url.getD []).length = 0 ∨ (s.broadcast_path.getD []).length = 0
  · rw [if_pos hc]
    exact ⟨h1, h2, h3⟩
  · rw [if_neg hc]
    push_neg at hc
    obtain ⟨hact, hurl, _hbp, hul, _hbl⟩ := hc
    have hact' : s.active = false := by
      cases hA : s.active
      · rfl
      · exact absurd hA hact
    obtain ⟨hslot, hfq, haq, hsess, hsub⟩ := h1 hact'
    simp only
    cases hss : strstr schemeSep (s.url.getD []) with
    | none => exact ⟨fun _ => ⟨hslot, hfq, haq, hsess, hsub⟩, h2, h3⟩
    | some hostStart =>
      dsimp only
      by_cases hh : (hostStart.drop 3).length = 0
      · rw [if_pos hh]
        exact ⟨fun _ => ⟨hslot, hfq, haq, hsess, hsub⟩, h2, h3⟩
      · rw [if_neg hh]
        have hvalid : ∃ url, s.url = some url ∧ urlOkB url = true := by
          refine ⟨s.url.getD [], ?_, ?_⟩
          · cases hu : s.url with
            | none => exact absurd hu hurl
            | some u => simp [hu]
          · simp only [urlOkB, hss, decide_eq_true_eq]
            simpa using hh
        by_cases hconn : o.connectRet ≤ 0
        · rw [if_pos hconn]
          refine ⟨?_, ?_, ?_⟩
          · intro _
            exact ⟨hslot, hfq, haq, hconn, hsub⟩
          · intro _
            exact hvalid
          · exact h3
        · rw [if_neg hconn]
          cases hvd : vaapi_decoder_init o.hwOk o.swOk with
          | none =>
            dsimp only
            refine ⟨?_, ?_, ?_⟩
            · intro _
              refine ⟨hslot, hfq, haq, ?_, ?_⟩
              · simp only [activateCleanup]
                by_cases hp : o.connectRet > 0 <;> simp [hp] <;> omega
              · simp only [activateCleanup]
                by_cases hp : s.subscription_id > 0 <;> simp [hp] <;> omega
            · intro _
              exact hvalid
            · exact h3
          | some dec =>
            dsimp only
            by_cases hau : o.audioOk = false
            · rw [if_pos hau]
              refine ⟨?_, ?_, ?_⟩
              · intro _
                refine ⟨hslot, hfq, haq, ?_, ?_⟩
                · simp only [activateCleanup]
                  by_cases hp : o.connectRet > 0 <;> simp [hp] <;> omega
                · simp only [activateCleanup]
                  by_cases hp : s.subscription_id > 0 <;> simp [hp] <;> omega
              · intro _
                exact hvalid
              · exact h3
            · rw [if_neg hau]
              by_cases hsubr : o.subscribeRet ≤ 0
              · rw [if_pos hsubr]
                refine ⟨?_, ?_, ?_⟩
                · intro _
                  refine ⟨hslot, hfq, haq, ?_, ?_⟩
                  · simp only [activateCleanup]
                    by_cases hp : o.connectRet > 0 <;> simp [hp] <;> omega
                  · simp only [activateCleanup]
                    by_cases hp : o.subscribeRet > 0 <;> simp [hp] <;> omega
                · intro _
                  exact hvalid
                · exact h3
              · rw [if_neg hsubr]
                refine ⟨?_, ?_, ?_⟩
                · intro hA
                  exact absurd hA (by simp)
                · intro _
                  exact hvalid
                · exact h3

theorem inv_update (s : HangSource) (url bpath : List Char) (o : ActivateOracle)
    (h : Inv s) : Inv (hang_source_update s url bpath o).st := by
  unfold hang_source_update
  by_cases hch : ¬(s.url = none ∨ s.url ≠ some url)
      ∧ ¬(s.broadcast_path = none ∨ s.broadcast_path ≠ some bpath)
  · rw [if_pos hch]
    exact h
  · rw [if_neg hch]
    have hd := inv_deactivate s h
    obtain ⟨d1, d2, d3⟩ := hd
    have hdact : (hang_source_deactivate s).1.active = false := by
      unfold hang_source_deactivate
      cases hact : s.active with
      | false => simpa [hact] using hact
      | true => simp
    obtain ⟨dslot, dfq, daq, dsess, dsub⟩ := d1 hdact
    have hs2 : Inv { (hang_source_deactivate s).1 with
        url := some url, broadcast_path := some bpath } := by
      refine ⟨?_, ?_, ?_⟩
      · intro _
        exact ⟨dslot, dfq, daq, dsess, dsub⟩
      · intro hA
        exact absurd hA (by simp [hdact])
      · exact d3
    by_cases hne : 0 < url.length ∧ 0 < bpath.length
    · rw [if_pos hne]
      exact inv_activate _ o hs2
    · rw [if_neg hne]
      exact hs2

theorem sw_decode_success_buf (dec : VaapiDecoder) (data : List Nat) (o : CodecStep)
    (slot : Slot) (hok : (software_decode_frame dec data o slot).ok = true) :
    (software_decode_frame dec data o slot).slot.buf = some o.scaled := by
  revert hok
  unfold software_decode_frame
  cases hconv : convert_mp4_nal_units_to_annex_b data with
  | none => intro h; cases h
  | some conv =>
    simp only
    by_cases h1 : o.packetAllocOk = false
    · simp [h1]
    by_cases h2 : o.sendRet < 0
    · simp [h1, h2]
    by_cases h3 : o.frameAllocOk = false
    · simp [h1, h2, h3]
    simp only [h1, h2, h3, if_false]
    cases hr : o.recvFrame with
    | none => intro h; cases h
    | some frame =>
      simp only
      cases hsws : dec.sws_ctx with
      | none =>
        by_cases h4 : o.swsCreateOk
        · simp only [h4, if_true]
          by_cases h5 : o.rgbaAllocOk = false
          · simp [h5]
          by_cases h6 : o.scaleRet < 0
          · simp [h5, h6]
          simp only [h5, h6, if_false]
          intro _
          rfl
        · simp [h4]
      | some c0 =>
        simp only
        by_cases h5 : o.rgbaAllocOk = false
        · simp [h5]
        by_cases h6 : o.scaleRet < 0
        · simp [h5, h6]
        simp only [h5, h6, if_false]
        intro _
        rfl

theorem inv_on_video (s : HangSource) (data : List Nat) (o : CodecStep)
    (h : Inv s) : Inv (on_video s data o) := by
  obtain ⟨h1, h2, h3⟩ := h
  unfold on_video
  cases hact : s.active with
  | false => exact ⟨h1, h2, h3⟩
  | true =>
    simp only [Bool.true_eq_false, if_false]
    constructor
    · intro hA
      exact absurd hA (by simp)
    constructor
    · intro _
      exact h2 hact
    intro hbuf
    cases hvd : s.vaapi_context with
    | none =>
      simp only [vaapi_decoder_decode, hvd] at hbuf ⊢
      exact h3 hbuf
    | some dec =>
      by_cases hdisp : dec.va_display = true
      · simp only [vaapi_decoder_decode, hvd, hdisp, if_true] at hbuf ⊢
        exact h3 hbuf
      · by_cases hcc : dec.codec_ctx = true
        · simp only [vaapi_decoder_decode, hvd, hdisp, hcc, Bool.false_eq_true,
            if_true, if_false] at hbuf ⊢
          cases hok : (software_decode_frame dec data o s.slot).ok with
          | false =>
            have hun := ((software_decode_true_iff dec data o s.slot).2.1 hok).1
            rw [hun] at hbuf ⊢
            exact h3 hbuf
          | true =>
            have hst := sw_decode_success_buf dec data o s.slot hok
            rw [hst] at hbuf
            cases hbuf
        · simp only [vaapi_decoder_decode, hvd, hdisp, hcc, if_false] at hbuf ⊢
          exact h3 hbuf

theorem inv_on_audio (s : HangSource) (ok : Bool) (h : Inv s) :
    Inv (on_audio s ok) := by
  obtain ⟨h1, h2, h3⟩ := h
  unfold on_audio
  cases hact : s.active with
  | false => exact ⟨h1, h2, h3⟩
  | true =>
    simp only [Bool.true_eq_false, if_false]
    refine ⟨?_, ?_, ?_⟩
    · intro hA
      exact absurd hA (by simp)
    · intro _
      exact h2 hact
    · exact h3

theorem reachable_inv {s : HangSource} (h : Reachable s) : Inv s := by
  induction h with
  | created url bpath o => exact inv_update createState url bpath o inv_createState
  | step st _hr ih =>
    cases st with
    | upd url bpath o => exact inv_update _ url bpath o ih
    | act o => exact inv_activate _ o ih
    | deact => exact inv_deactivate _ ih
    | vid d o => exact inv_on_video _ d o ih
    | aud ok => exact inv_on_audio _ ok ih

/-- C4: after `deactivate` returns on any reachable context state, the
latest-frame slot is empty (null buffer, zero size and dimensions), both
queues are empty, no session or subscription is held (both ids are
non-positive — positive ids are the only ones that denote a live handle),
and the context is inactive.  On an active context `deactivate` itself
clears everything; an inactive reachable context already satisfies all of
this and `deactivate` is a no-op on it. -/
theorem deactivate_clears (s : HangSource) (h : Reachable s) :
    (hang_source_deactivate s).1.slot = emptySlot
    ∧ (hang_source_deactivate s).1.frame_queue_len = 0
    ∧ (hang_source_deactivate s).1.audio_queue_len = 0
    ∧ (hang_source_deactivate s).1.session_id ≤ 0
    ∧ (hang_source_deactivate s).1.subscription_id ≤ 0
    ∧ (hang_source_deactivate s).1.active = false := by
  obtain ⟨h1, _h2, h3⟩ := reachable_inv h
  unfold hang_source_deactivate
  cases hact : s.active with
  | false =>
    obtain ⟨hslot, hfq, haq, hsess, hsub⟩ := h1 hact
    exact ⟨hslot, hfq, haq, hsess, hsub, hact⟩
  | true =>
    simp only [Bool.true_eq_false, if_false]
    refine ⟨flushSlot_of_inv h3, trivial, trivial, ?_, ?_, trivial⟩
    · by_cases hp : s.session_id > 0 <;> simp [hp] <;> omega
    · by_cases hp : s.subscription_id > 0 <;> simp [hp] <;> omega

/-- Witness for `deactivate_clears`, on the context freshly created with
empty settings. -/
theorem deactivate_clears_witness :
    (hang_source_deactivate (hang_source_create [] [] ⟨0, false, false, false, 0⟩).st).1.slot
        = emptySlot
    ∧ (hang_source_deactivate
        (hang_source_create [] [] ⟨0, false, false, false, 0⟩).st).1.frame_queue_len = 0
    ∧ (hang_source_deactivate
        (hang_source_create [] [] ⟨0, false, false, false, 0⟩).st).1.audio_queue_len = 0
    ∧ (hang_source_deactivate
        (hang_source_create [] [] ⟨0, false, false, false, 0⟩).st).1.session_id ≤ 0
    ∧ (hang_source_deactivate
        (hang_source_create [] [] ⟨0, false, false, false, 0⟩).st).1.subscription_id ≤ 0
    ∧ (hang_source_deactivate
        (hang_source_create [] [] ⟨0, false, false, false, 0⟩).st).1.active = false :=
  deactivate_clears _ (Reachable.created [] [] ⟨0, false, false, false, 0⟩)

/-- C5: on every reachable context whose configured URL is non-empty but
invalid — no `://` substring, or nothing after it — and whose broadcast path
is configured, `activate` fails with `InvalidConfiguration` and does nothing
else: the state is returned unchanged, no MoQ call (in particular no
`moq_session_connect`) is made, the context is inactive (an active context
always has a validated URL), and no session or subscription is held. -/
theorem invalid_url_aborts (s : HangSource) (o : ActivateOracle) (h : Reachable s)
    (url : List Char) (hu : s.url = some url) (hul : url.length ≠ 0)
    (hb : s.broadcast_path ≠ none) (hbl : (s.broadcast_path.getD []).length ≠ 0)
    (hbad : urlOkB url = false) :
    hang_source_activate s o = ⟨s, [], [HangError.invalidConfiguration]⟩
    ∧ s.active = false ∧ s.session_id ≤ 0 ∧ s.subscription_id ≤ 0 := by
  obtain ⟨h1, h2, _h3⟩ := reachable_inv h
  have hact : s.active = false := by
    cases hA : s.active with
    | false => rfl
    | true =>
      obtain ⟨u', hu', hok⟩ := h2 hA
      rw [hu] at hu'
      cases hu'
      rw [hok] at hbad
      cases hbad
  obtain ⟨_hslot, _hfq, _haq, hsess, hsub⟩ := h1 hact
  refine ⟨?_, hact, hsess, hsub⟩
  unfold hang_source_activate
  have hcond : ¬(s.active = true ∨ s.url = none ∨ s.broadcast_path = none
      ∨ (s.url.getD []).length = 0 ∨ (s.broadcast_path.getD []).length = 0) := by
    push_neg
    exact ⟨by simp [hact], by simp [hu], hb, by simpa [hu] using hul, hbl⟩
  rw [if_neg hcond]
  simp only
  have hgd : s.url.getD [] = url := by simp [hu]
  unfold urlOkB at hbad
  cases hss : strstr schemeSep (s.url.getD []) with
  | none => rfl
  | some hostStart =>
    dsimp only
    rw [hgd] at hss
    rw [hss] at hbad
    dsimp only at hbad
    simp only [decide_eq_false_iff_not, ne_eq, not_not] at hbad
    rw [if_pos hbad]

/-- Witness for `invalid_url_aborts`: a context configured with URL
`"no-scheme"` and broadcast `"b"` (reachable via `create`). -/
theorem invalid_url_aborts_witness :
    hang_source_activate
        (hang_source_create
          ([ 'n', 'o', '-', 's', 'c', 'h', 'e', 'm', 'e' ]) ([ 'b' ])
          ⟨0, false, false, false, 0⟩).st
        ⟨0, false, false, false, 0⟩
      = ⟨(hang_source_create
          ([ 'n', 'o', '-', 's', 'c', 'h', 'e', 'm', 'e' ]) ([ 'b' ])
          ⟨0, false, false, false, 0⟩).st, [], [HangError.invalidConfiguration]⟩
    ∧ (hang_source_create
          ([ 'n', 'o', '-', 's', 'c', 'h', 'e', 'm', 'e' ]) ([ 'b' ])
          ⟨0, false, false, false, 0⟩).st.active = false
    ∧ (hang_source_create
          ([ 'n', 'o', '-', 's', 'c', 'h', 'e', 'm', 'e' ]) ([ 'b' ])
          ⟨0, false, false, false, 0⟩).st.session_id ≤ 0
    ∧ (hang_source_create
          ([ 'n', 'o', '-', 's', 'c', 'h', 'e', 'm', 'e' ]) ([ 'b' ])
          ⟨0, false, false, false, 0⟩).st.subscription_id ≤ 0 :=
  invalid_url_aborts _ ⟨0, false, false, false, 0⟩
    (Reachable.created ([ 'n', 'o', '-', 's', 'c', 'h', 'e', 'm', 'e' ]) ([ 'b' ])
      ⟨0, false, false, false, 0⟩)
    ([ 'n', 'o', '-', 's', 'c', 'h', 'e', 'm', 'e' ])
    (by decide) (by decide) (by decide) (by decide) (by decide)

/-- C8: `update` with settings equal to the stored URL and broadcast strings
is a complete no-op: the state (active flag, session and subscription ids,
stored strings, staged frame slot, queue contents) is returned unchanged, no
MoQ call is made and no error is logged. -/
theorem update_unchanged_noop (s : HangSource) (url bpath : List Char)
    (o : ActivateOracle) (hu : s.url = some url) (hb : s.broadcast_path = some bpath) :
    hang_source_update s url bpath o = ⟨s, [], []⟩ := by
  unfold hang_source_update
  have hcond : ¬(s.url = none ∨ s.url ≠ some url)
      ∧ ¬(s.broadcast_path = none ∨ s.broadcast_path ≠ some bpath) := by
    constructor
    · push_neg
      exact ⟨by simp [hu], hu⟩
    · push_neg
      exact ⟨by simp [hb], hb⟩
  rw [if_pos hcond]

/-- Witness for `update_unchanged_noop`: re-sending the stored settings of a
freshly created context. -/
theorem update_unchanged_noop_witness :
    hang_source_update (hang_source_create ([ 'u' ]) ([ 'b' ]) ⟨0, false, false, false, 0⟩).st
        ([ 'u' ]) ([ 'b' ]) ⟨0, false, false, false, 0⟩
      = ⟨(hang_source_create ([ 'u' ]) ([ 'b' ]) ⟨0, false, false, false, 0⟩).st, [], []⟩ :=
  update_unchanged_noop _ ([ 'u' ]) ([ 'b' ]) ⟨0, false, false, false, 0⟩
    (by decide) (by decide)

/-- C9: on an inactive context whose broadcast path is empty or missing (or
whose URL is empty or missing), `activate` is a no-op, not an error: the
state is returned unchanged (still inactive), no MoQ call is made — so no
session is opened and no decoder initialized — and no error (in particular
no `InvalidConfiguration`) is surfaced. -/
theorem unconfigured_activate_noop (s : HangSource) (o : ActivateOracle)
    (hin : s.active = false)
    (hempty : s.broadcast_path = some [] ∨ s.broadcast_path = none
      ∨ s.url = some [] ∨ s.url = none) :
    hang_source_activate s o = ⟨s, [], []⟩ := by
  unfold hang_source_activate
  have hcond : s.active = true ∨ s.url = none ∨ s.broadcast_path = none
      ∨ (s.url.getD []).length = 0 ∨ (s.broadcast_path.getD []).length = 0 := by
    rcases hempty with hb | hb | hb | hb
    · exact Or.inr (Or.inr (Or.inr (Or.inr (by simp [hb]))))
    · exact Or.inr (Or.inr (Or.inl hb))
    · exact Or.inr (Or.inr (Or.inr (Or.inl (by simp [hb]))))
    · exact Or.inr (Or.inl hb)
  rw [if_pos hcond]

/-- Witness for `unconfigured_activate_noop`: a context created with URL
`"u"` and an empty broadcast path. -/
theorem unconfigured_activate_noop_witness :
    hang_source_activate (hang_source_create ([ 'u' ]) [] ⟨0, false, false, false, 0⟩).st
        ⟨0, false, false, false, 0⟩
      = ⟨(hang_source_create ([ 'u' ]) [] ⟨0, false, false, false, 0⟩).st, [], []⟩ :=
  unconfigured_activate_noop _ ⟨0, false, false, false, 0⟩ (by decide)
    (Or.inl (by decide))

end ObsHang
